import Mathlib

/-!
A verification development for the Datathon2025 shelter-clustering pipeline
(`backend/clustering.py` and `backend/app.py`).

The pipeline's numeric columns are pandas float64 columns.  Where the claims
depend on IEEE behaviour (NaN propagation, division by zero producing
infinities, `clip`/`fillna`), values are modelled by `PFloat`: a rational
number, `nan`, `pinf` (+inf) or `ninf` (-inf).  Elsewhere plain rationals
stand in for floats, since the claims there are exact-arithmetic statements
(orderings, zero tests, replication counts) that do not hinge on rounding.
-/

namespace Datathon

/-- A pandas float64 cell: a finite rational, NaN, +inf or -inf. -/
inductive PFloat where
  | nan
  | pinf
  | ninf
  | num (x : ℚ)
deriving DecidableEq, Repr

namespace PFloat

/-- IEEE multiplication on `PFloat` (inf * 0 = NaN, NaN propagates). -/
def mul : PFloat → PFloat → PFloat
  | nan, _ => nan
  | _, nan => nan
  | num a, num b => num (a * b)
  | pinf, num b => if 0 < b then pinf else if b < 0 then ninf else nan
  | num a, pinf => if 0 < a then pinf else if a < 0 then ninf else nan
  | ninf, num b => if 0 < b then ninf else if b < 0 then pinf else nan
  | num a, ninf => if 0 < a then ninf else if a < 0 then pinf else nan
  | pinf, pinf => pinf
  | pinf, ninf => ninf
  | ninf, pinf => ninf
  | ninf, ninf => pinf

/-- IEEE division on `PFloat`: a positive finite number divided by zero is
+inf, a negative one is -inf, and 0/0 is NaN (this is what a pandas float64
Series division does). -/
def div : PFloat → PFloat → PFloat
  | nan, _ => nan
  | _, nan => nan
  | num a, num b =>
      if b = 0 then (if 0 < a then pinf else if a < 0 then ninf else nan)
      else num (a / b)
  | pinf, num b => if 0 ≤ b then pinf else ninf
  | ninf, num b => if 0 ≤ b then ninf else pinf
  | num _, pinf => num 0
  | num _, ninf => num 0
  | pinf, pinf => nan
  | pinf, ninf => nan
  | ninf, pinf => nan
  | ninf, ninf => nan

/-- `Series.clip(lo, hi)`: NaN passes through, infinities are clamped to the
bounds, finite values are clamped into `[lo, hi]`. -/
def clip (lo hi : ℚ) : PFloat → PFloat
  | nan => nan
  | pinf => num hi
  | ninf => num lo
  | num x => num (max lo (min hi x))

/-- `Series.fillna(d)`: replace NaN by `d`, leave everything else alone. -/
def fillna (d : ℚ) : PFloat → PFloat
  | nan => num d
  | v => v

@[simp] theorem mul_num_num (a b : ℚ) : mul (num a) (num b) = num (a * b) := rfl

@[simp] theorem mul_nan_left (v : PFloat) : mul nan v = nan := by cases v <;> rfl

@[simp] theorem mul_pinf_num (b : ℚ) :
    mul pinf (num b) = if 0 < b then pinf else if b < 0 then ninf else nan := rfl

@[simp] theorem mul_ninf_num (b : ℚ) :
    mul ninf (num b) = if 0 < b then ninf else if b < 0 then pinf else nan := rfl

@[simp] theorem div_num_num (a b : ℚ) :
    div (num a) (num b) =
      if b = 0 then (if 0 < a then pinf else if a < 0 then ninf else nan)
      else num (a / b) := rfl

@[simp] theorem div_nan_left (v : PFloat) : div nan v = nan := by cases v <;> rfl

@[simp] theorem div_num_nan (a : ℚ) : div (num a) nan = nan := rfl

@[simp] theorem clip_nan (lo hi : ℚ) : clip lo hi nan = nan := rfl

@[simp] theorem clip_pinf (lo hi : ℚ) : clip lo hi pinf = num hi := rfl

@[simp] theorem clip_ninf (lo hi : ℚ) : clip lo hi ninf = num lo := rfl

@[simp] theorem clip_num (lo hi x : ℚ) : clip lo hi (num x) = num (max lo (min hi x)) := rfl

@[simp] theorem fillna_nan (d : ℚ) : fillna d nan = num d := rfl

@[simp] theorem fillna_num (d x : ℚ) : fillna d (num x) = num x := rfl

@[simp] theorem fillna_pinf (d : ℚ) : fillna d pinf = pinf := rfl

@[simp] theorem fillna_ninf (d : ℚ) : fillna d ninf = ninf := rfl

end PFloat

/-- Lift an optional rational (a mean that may be undefined) to a `PFloat`,
`none` becoming NaN. -/
def toPF : Option ℚ → PFloat
  | none => PFloat.nan
  | some x => PFloat.num x

@[simp] theorem toPF_none : toPF none = PFloat.nan := rfl

@[simp] theorem toPF_some (x : ℚ) : toPF (some x) = PFloat.num x := rfl

/-!
## Shelter aggregation (`clustering.py`, steps 1-2)

A raw `shelters.csv` row after the column selection and string coercion.
An absent / non-numeric numeric cell is `none` (NaN).
-/

structure ShelterRow where
  name : String
  address : String
  capacity : Option ℚ
  occupied : Option ℚ
  rate : Option ℚ
deriving DecidableEq, Repr

/-- `df_clean`: the rows kept before aggregation.  The source filter is
`df["CAPACITY_FUNDING_BED"].notna() & df["OCCUPIED_BEDS"].notna()`. -/
def dfClean (rows : List ShelterRow) : List ShelterRow :=
  rows.filter (fun r => r.capacity.isSome && r.occupied.isSome)

/-- pandas column mean: NaN entries are skipped; an all-NaN (or empty)
column yields NaN (`none`). -/
def meanOpt (l : List (Option ℚ)) : Option ℚ :=
  match l.filterMap id with
  | [] => none
  | x :: xs => some ((x :: xs).sum / ((x :: xs).length : ℚ))

/-- One aggregated shelter location (one `agg` row before geocoding). -/
structure AggRow where
  name : String
  address : String
  avg_capacity_beds : Option ℚ
  avg_occupied_beds : Option ℚ
  avg_occ_rate_beds : Option ℚ
  occ_rate : PFloat
deriving DecidableEq, Repr

/-- The `occ_rate` column computation of `clustering.py` lines 71-72:
`(avg_occupied_beds / avg_capacity_beds) * 100`, then `.clip(0, 100)`,
then `.fillna(0)`.  The reported-rate column is not consulted. -/
def occRateCol (mo mc : Option ℚ) : PFloat :=
  PFloat.fillna 0 (PFloat.clip 0 100 (PFloat.mul (PFloat.div (toPF mo) (toPF mc)) (PFloat.num 100)))

/-- Aggregate one `(name, address)` group: per-column means plus the
recomputed `occ_rate`. -/
def aggregateGroup (key : String × String) (g : List ShelterRow) : AggRow :=
  let mc := meanOpt (g.map (·.capacity))
  let mo := meanOpt (g.map (·.occupied))
  let mr := meanOpt (g.map (·.rate))
  { name := key.1, address := key.2,
    avg_capacity_beds := mc, avg_occupied_beds := mo, avg_occ_rate_beds := mr,
    occ_rate := occRateCol mo mc }

/-- The distinct `(name, address)` keys present in a row list (the groupby
keys; pandas sorts them, but every claim here is per-group, so key order is
irrelevant). -/
def groupKeys (rows : List ShelterRow) : List (String × String) :=
  (rows.map (fun r => (r.name, r.address))).dedup

/-- The full aggregation `agg`: filter to `df_clean`, group by
`(name, address)`, aggregate each group. -/
def aggregate (rows : List ShelterRow) : List AggRow :=
  (groupKeys (dfClean rows)).map (fun k =>
    aggregateGroup k ((dfClean rows).filter (fun r => (r.name, r.address) = k)))

/-- The closed form of the recomputed occupancy rate on a group whose
capacity/occupied means exist: `occupied/capacity × 100` clipped to
`[0,100]`, a zero capacity yielding 100 for positive occupancy (inf clipped)
and 0 otherwise (NaN filled / -inf clipped). -/
def occRateClosed (mo mc : ℚ) : ℚ :=
  if mc = 0 then (if 0 < mo then 100 else 0) else max 0 (min 100 (mo / mc * 100))

theorem occRateCol_some (mo mc : ℚ) :
    occRateCol (some mo) (some mc) = PFloat.num (occRateClosed mo mc) := by
  unfold occRateCol occRateClosed
  by_cases hmc : mc = 0
  · by_cases hmo : 0 < mo
    · simp [hmc, hmo]
    · by_cases hmo2 : mo < 0
      · simp [hmc, hmo, hmo2]
      · simp [hmc, hmo, hmo2]
  · simp [hmc]

theorem occRateClosed_nonneg (mo mc : ℚ) : 0 ≤ occRateClosed mo mc := by
  unfold occRateClosed
  split_ifs <;> simp

theorem occRateClosed_le (mo mc : ℚ) : occRateClosed mo mc ≤ 100 := by
  unfold occRateClosed
  split_ifs <;> simp

theorem mem_dfClean {rows : List ShelterRow} {r : ShelterRow} :
    r ∈ dfClean rows ↔ r ∈ rows ∧ r.capacity.isSome ∧ r.occupied.isSome := by
  simp [dfClean, List.mem_filter, Bool.and_eq_true]

theorem meanOpt_isSome {α : Type} (f : α → Option ℚ) (g : List α)
    (hne : g ≠ []) (hall : ∀ r ∈ g, (f r).isSome) :
    ∃ q, meanOpt (g.map f) = some q := by
  obtain ⟨r, hr⟩ := List.exists_mem_of_ne_nil g hne
  obtain ⟨x, hx⟩ := Option.isSome_iff_exists.mp (hall r hr)
  have hmem : x ∈ (g.map f).filterMap id :=
    List.mem_filterMap.mpr ⟨some x, List.mem_map.mpr ⟨r, hr, hx⟩, rfl⟩
  unfold meanOpt
  rcases hv : (g.map f).filterMap id with _ | ⟨y, ys⟩
  · rw [hv] at hmem
    exact absurd hmem (List.not_mem_nil x)
  · exact ⟨_, rfl⟩

/-- Every row of `agg` comes from a nonempty group of `df_clean` rows whose
capacity and occupied cells are all present, so both column means exist and
`occ_rate` takes its closed-form value. -/
theorem aggregate_mem {rows : List ShelterRow} {a : AggRow} (h : a ∈ aggregate rows) :
    ∃ mo mc, a.avg_occupied_beds = some mo ∧ a.avg_capacity_beds = some mc ∧
      a.occ_rate = PFloat.num (occRateClosed mo mc) := by
  obtain ⟨k, hk, rfl⟩ := List.mem_map.mp h
  obtain ⟨r, hr, hkey⟩ := List.mem_map.mp (List.mem_dedup.mp hk)
  have hrg : r ∈ (dfClean rows).filter (fun r => (r.name, r.address) = k) :=
    List.mem_filter.mpr ⟨hr, by simp [hkey]⟩
  have hne : (dfClean rows).filter (fun r => (r.name, r.address) = k) ≠ [] :=
    List.ne_nil_of_mem hrg
  have hall : ∀ s ∈ (dfClean rows).filter (fun r => (r.name, r.address) = k),
      s.capacity.isSome ∧ s.occupied.isSome := by
    intro s hs
    have := (mem_dfClean.mp (List.mem_filter.mp hs).1)
    exact ⟨this.2.1, this.2.2⟩
  obtain ⟨mc, hmc⟩ := meanOpt_isSome (·.capacity) _ hne (fun s hs => (hall s hs).1)
  obtain ⟨mo, hmo⟩ := meanOpt_isSome (·.occupied) _ hne (fun s hs => (hall s hs).2)
  refine ⟨mo, mc, ?_, ?_, ?_⟩
  · simp [aggregateGroup, hmo]
  · simp [aggregateGroup, hmc]
  · simp [aggregateGroup, hmo, hmc, occRateCol_some]

/-- A shelter row whose reported occupancy rate (50) disagrees with
occupied/capacity × 100 (10): capacity 100, occupied 10, reported rate 50. -/
def reportedRateRow : ShelterRow :=
  { name := "s", address := "a", capacity := some 100, occupied := some 10, rate := some 50 }

/-- The aggregated row produced from `reportedRateRow` alone. -/
def reportedRateAgg : AggRow := aggregateGroup ("s", "a") [reportedRateRow]

/-- C1 counterexample: for a group whose mean reported rate is present (50),
the pipeline still sets `occ_rate` to mean occupied / mean capacity × 100
(= 10), not to the reported rate: the code recomputes all occupancy rates
(`clustering.py` line 70 comment) and never reads `avg_occ_rate_beds`. -/
theorem occ_rate_ignores_reported_rate :
    (aggregate [reportedRateRow]).map (·.avg_occ_rate_beds) = [some 50] ∧
    (aggregate [reportedRateRow]).map (·.occ_rate) = [PFloat.num 10] ∧
    (10 : ℚ) ≠ 50 := by
  refine ⟨?_, ?_, by norm_num⟩ <;>
    norm_num [aggregate, groupKeys, dfClean, reportedRateRow, aggregateGroup, meanOpt,
      occRateCol, List.filterMap_cons, List.sum_cons]

/-- C1 (amended): for every aggregated shelter group the computed `occ_rate`
equals (mean occupied beds / mean capacity beds) × 100 clipped to [0,100]
(zero capacity giving 100 for positive mean occupancy and 0 otherwise),
regardless of whether a reported mean rate is present — the reported rate is
never used. -/
theorem occ_rate_always_recomputed (rows : List ShelterRow) (a : AggRow)
    (h : a ∈ aggregate rows) :
    ∃ mo mc, a.avg_occupied_beds = some mo ∧ a.avg_capacity_beds = some mc ∧
      a.occ_rate = PFloat.num (occRateClosed mo mc) :=
  aggregate_mem h

/-- Witness for C1 at the concrete single-row input `reportedRateRow`. -/
theorem occ_rate_always_recomputed_witness :
    ∃ mo mc, reportedRateAgg.avg_occupied_beds = some mo ∧
      reportedRateAgg.avg_capacity_beds = some mc ∧
      reportedRateAgg.occ_rate = PFloat.num (occRateClosed mo mc) :=
  occ_rate_always_recomputed [reportedRateRow] reportedRateAgg
    (by simp [aggregate, groupKeys, dfClean, reportedRateRow, reportedRateAgg])

/-- A shelter row with zero capacity, five occupied beds and no reported
rate — the example of the C2 claim. -/
def zeroCapRow : ShelterRow :=
  { name := "s", address := "a", capacity := some 0, occupied := some 5, rate := none }

/-- The aggregated row produced from `zeroCapRow` alone. -/
def zeroCapAgg : AggRow := aggregateGroup ("s", "a") [zeroCapRow]

/-- C2 counterexample: for capacity 0, occupied 5, no reported rate, the
float division 5/0 is +inf, which `clip(0, 100)` clamps to 100 — so the
computed `occ_rate` is 100, not the 0 the claim states. -/
theorem occ_rate_zero_capacity_gives_100 :
    (aggregate [zeroCapRow]).map (·.occ_rate) = [PFloat.num 100] ∧ (100 : ℚ) ≠ 0 := by
  refine ⟨?_, by norm_num⟩
  norm_num [aggregate, groupKeys, dfClean, zeroCapRow, aggregateGroup, meanOpt,
    occRateCol, List.filterMap_cons, List.sum_cons]

/-- C2 (amended): every aggregated `occ_rate` is a finite number (never NaN)
in [0,100]; when the mean capacity is zero the rate is 100 if the mean
occupied count is positive (inf clipped to the upper bound) and 0 otherwise
(NaN filled with 0 / -inf clipped to the lower bound). -/
theorem occ_rate_range (rows : List ShelterRow) (a : AggRow) (h : a ∈ aggregate rows) :
    ∃ x, a.occ_rate = PFloat.num x ∧ 0 ≤ x ∧ x ≤ 100 ∧
      (a.avg_capacity_beds = some 0 →
        ∃ mo, a.avg_occupied_beds = some mo ∧ x = if 0 < mo then 100 else 0) := by
  obtain ⟨mo, mc, hmo, hmc, hocc⟩ := aggregate_mem h
  refine ⟨occRateClosed mo mc, hocc, occRateClosed_nonneg mo mc, occRateClosed_le mo mc, ?_⟩
  intro hc0
  rw [hmc] at hc0
  have hmc0 : mc = 0 := by injection hc0
  exact ⟨mo, hmo, by simp [occRateClosed, hmc0]⟩

/-- Witness for C2 at the concrete single-row input `zeroCapRow`. -/
theorem occ_rate_range_witness :
    ∃ x, zeroCapAgg.occ_rate = PFloat.num x ∧ 0 ≤ x ∧ x ≤ 100 ∧
      (zeroCapAgg.avg_capacity_beds = some 0 →
        ∃ mo, zeroCapAgg.avg_occupied_beds = some mo ∧ x = if 0 < mo then 100 else 0) :=
  occ_rate_range [zeroCapRow] zeroCapAgg
    (by simp [aggregate, groupKeys, dfClean, zeroCapRow, zeroCapAgg])

/-- A shelter row with capacity present but occupied beds missing. -/
def capacityOnlyRow : ShelterRow :=
  { name := "s", address := "a", capacity := some 10, occupied := none, rate := none }

/-- C3 counterexample: a row missing only the occupied-beds field — so not
missing *both* fields — is nevertheless dropped by `df_clean`, which keeps a
row only when capacity *and* occupied are both present. -/
theorem dfClean_drops_row_with_capacity_only :
    dfClean [capacityOnlyRow] = [] ∧ capacityOnlyRow.capacity.isSome = true := by
  exact ⟨by norm_num [dfClean, capacityOnlyRow], rfl⟩

/-- C3 (amended): before grouping, exactly those raw rows missing capacity
*or* occupied beds are dropped: a row survives into `df_clean` iff both the
capacity field and the occupied-beds field are present. -/
theorem dfClean_keeps_iff_both_present (rows : List ShelterRow) (r : ShelterRow) :
    r ∈ dfClean rows ↔ r ∈ rows ∧ r.capacity.isSome ∧ r.occupied.isSome :=
  mem_dfClean

/-!
## Demand point builder (`clustering.py`, step 5)

An encampment weight cell as read from `encampments.csv`: NaN (missing),
a non-numeric string, or a numeric value.
-/

inductive WCell where
  | missing
  | textual (s : String)
  | num (x : ℚ)
deriving DecidableEq, Repr

/-- `pd.to_numeric(..., errors="coerce")` on one cell: numbers pass through,
anything else becomes NaN. -/
def toNumericCoerce : WCell → Option ℚ
  | .num x => some x
  | _ => none

/-- `Series.fillna(d)` on an optional numeric cell. -/
def fillnaOpt (d : ℚ) (v : Option ℚ) : ℚ := v.getD d

/-- One `encampments.csv` row (rows lacking lat/lon never reach this stage;
`enc["lat"].astype(float)` would have failed otherwise). -/
structure EncRow where
  name : String
  lat : ℚ
  lon : ℚ
  weight : WCell
deriving DecidableEq, Repr

/-- One row of the `demand` table. -/
structure DemandPoint where
  name : String
  lat : ℚ
  lon : ℚ
  weight : ℚ
  source : String
deriving DecidableEq, Repr

/-- The demand table builder of `clustering.py` lines 168-182: if the weight
column is absent every weight is 1.0; otherwise the column is coerced to
numeric and NaNs are filled with 1.0; every row is tagged "encampment". -/
def buildDemand (hasWeightCol : Bool) (rows : List EncRow) : List DemandPoint :=
  rows.map (fun r =>
    { name := r.name, lat := r.lat, lon := r.lon,
      weight := if hasWeightCol then fillnaOpt 1 (toNumericCoerce r.weight) else 1,
      source := "encampment" })

/-- An encampment row carrying a negative numeric weight. -/
def negWeightEnc : EncRow := { name := "e", lat := 43, lon := -79, weight := .num (-3) }

/-- C4 counterexample: a numeric weight of -3 in the encampment input passes
through `pd.to_numeric(...).fillna(1.0)` unchanged, so the builder's output
contains a demand point with weight -3 < 0, contradicting the claimed
invariant weight ≥ 0. -/
theorem demand_weight_negative :
    (buildDemand true [negWeightEnc]).map (·.weight) = [(-3 : ℚ)] ∧ (-3 : ℚ) < 0 := by
  refine ⟨?_, by norm_num⟩
  norm_num [buildDemand, negWeightEnc, toNumericCoerce, fillnaOpt]

/-- C4 (amended): in the demand builder's output every weight is a plain
number (never NaN); a weight that is absent or non-numeric in the input is
replaced by the default 1.0; and every weight is ≥ 0 provided all numeric
input weights are ≥ 0 (a negative numeric weight is passed through
unchanged). -/
theorem demand_weight_default_and_nonneg (hasWeightCol : Bool) (rows : List EncRow) :
    (∀ r ∈ rows, toNumericCoerce r.weight = none →
      (⟨r.name, r.lat, r.lon, 1, "encampment"⟩ : DemandPoint) ∈ buildDemand hasWeightCol rows) ∧
    ((∀ r ∈ rows, ∀ x : ℚ, r.weight = .num x → 0 ≤ x) →
      ∀ p ∈ buildDemand hasWeightCol rows, 0 ≤ p.weight) := by
  constructor
  · intro r hr hcoerce
    refine List.mem_map.mpr ⟨r, hr, ?_⟩
    cases hasWeightCol <;> simp [fillnaOpt, hcoerce]
  · intro hnn p hp
    obtain ⟨r, hr, rfl⟩ := List.mem_map.mp hp
    cases hasWeightCol with
    | false => norm_num
    | true =>
      rcases hw : r.weight with _ | s | x
      · simp [fillnaOpt, toNumericCoerce, hw]
      · simp [fillnaOpt, toNumericCoerce, hw]
      · simpa [fillnaOpt, toNumericCoerce, hw] using hnn r hr x hw

/-- Witness for C4: an input with a missing weight and a nonnegative numeric
weight; the missing one defaults to 1.0 and all outputs are ≥ 0. -/
theorem demand_weight_default_and_nonneg_witness :
    (⟨"m", 1, 2, 1, "encampment"⟩ : DemandPoint) ∈
      buildDemand true [⟨"m", 1, 2, .missing⟩] ∧
    ∀ p ∈ buildDemand true [⟨"m", 1, 2, .missing⟩], 0 ≤ p.weight := by
  constructor
  · exact (demand_weight_default_and_nonneg true [⟨"m", 1, 2, .missing⟩]).1
      ⟨"m", 1, 2, .missing⟩ (by simp) rfl
  · exact (demand_weight_default_and_nonneg true [⟨"m", 1, 2, .missing⟩]).2
      (by intro r hr x hx; simp at hr; rw [hr] at hx; cases hx)

/-!
## Weighted expansion (`clustering.py`, step 6, lines 192-205)
-/

/-- Python's built-in `round`: round half to even. -/
def pyRound (q : ℚ) : ℤ :=
  if q - ⌊q⌋ < 1/2 then ⌊q⌋
  else if 1/2 < q - ⌊q⌋ then ⌊q⌋ + 1
  else if 2 ∣ ⌊q⌋ then ⌊q⌋ else ⌊q⌋ + 1

/-- The defensive weight guard of the expansion loop: `float(r["weight"])`
with NaN replaced by 0.0 (`none` models NaN). -/
def weightGuard (w : Option ℚ) : ℚ := w.getD 0

/-- `reps = max(1, int(round(w * 10)))`. -/
def reps (w : Option ℚ) : ℕ := (max 1 (pyRound (weightGuard w * 10))).toNat

/-- The expanded clustering input: each demand row appended `reps` times. -/
def expandPoints (l : List DemandPoint) : List DemandPoint :=
  l.flatMap (fun p => List.replicate (reps (some p.weight)) p)

theorem one_le_reps (w : Option ℚ) : 1 ≤ reps w := by
  simp only [reps]
  omega

theorem count_expandPoints_eq_zero {l : List DemandPoint} {p : DemandPoint}
    (h : p ∉ l) : (expandPoints l).count p = 0 := by
  rw [List.count_eq_zero]
  intro hmem
  obtain ⟨q, hq, hrep⟩ := List.mem_flatMap.mp hmem
  exact h (List.eq_of_mem_replicate hrep ▸ hq)

/-- C7: every demand point appearing exactly once in the demand table is
replicated exactly `max(1, round(weight * 10))` times in the clustering
input, and this replication count is at least 1 for every weight, including
zero and NaN-coerced-to-zero weights. -/
theorem expanded_replication_count (l : List DemandPoint) (p : DemandPoint)
    (hp : p ∈ l) (h1 : l.count p = 1) :
    (expandPoints l).count p = reps (some p.weight) ∧ ∀ w : Option ℚ, 1 ≤ reps w := by
  refine ⟨?_, one_le_reps⟩
  induction l with
  | nil => cases hp
  | cons x xs ih =>
    have hexp : expandPoints (x :: xs) =
        List.replicate (reps (some x.weight)) x ++ expandPoints xs := rfl
    rw [hexp, List.count_append, List.count_replicate]
    rw [List.count_cons] at h1
    by_cases hpx : p = x
    · subst hpx
      simp only [beq_self_eq_true, if_true] at h1 ⊢
      have hxs : xs.count p = 0 := by omega
      rw [count_expandPoints_eq_zero (List.count_eq_zero.mp hxs)]
      omega
    · have hbeq : (x == p) = false := beq_eq_false_iff_ne.mpr (Ne.symm hpx)
      rw [hbeq] at h1 ⊢
      simp only [Bool.false_eq_true, if_false, Nat.add_zero] at h1 ⊢
      have hpxs : p ∈ xs := by
        rcases List.mem_cons.mp hp with h | h
        · exact absurd h hpx
        · exact h
      rw [ih hpxs h1, Nat.zero_add]

/-- A demand point of weight zero. -/
def zeroWeightPt : DemandPoint := { name := "z", lat := 43, lon := -79, weight := 0, source := "encampment" }

/-- Witness for C7 at a concrete one-point table of weight 0: the point is
still replicated once. -/
theorem expanded_replication_count_witness :
    (expandPoints [zeroWeightPt]).count zeroWeightPt = reps (some zeroWeightPt.weight) ∧
    ∀ w : Option ℚ, 1 ≤ reps w :=
  expanded_replication_count [zeroWeightPt] zeroWeightPt (by simp) (by simp)

/-!
## Cluster assignment of original points (`clustering.py`, lines 213-221)

`nearest_cluster` computes the geodesic distance from a point to each of the
k centroids and returns `np.argmin` of that list.  The geodesic distance
function itself (geopy's `geodesic(...).km`) is an external library call; it
enters the embedding as an explicit function parameter `d`, and the theorem
below holds for every `d`, in particular for the true great-circle distance.
-/

/-- `np.argmin` over a nonempty list: index of the first minimal element. -/
def argminList : List ℚ → ℕ
  | [] => 0
  | [_] => 0
  | x :: y :: rest =>
      if x ≤ minListQ (y :: rest) then 0 else argminList (y :: rest) + 1
where
  /-- minimum of a nonempty list -/
  minListQ : List ℚ → ℚ
  | [] => 0
  | [x] => x
  | x :: y :: rest => min x (minListQ (y :: rest))

theorem argminList_lt_length (l : List ℚ) (h : l ≠ []) : argminList l < l.length := by
  induction l with
  | nil => exact absurd rfl h
  | cons x xs ih =>
    cases xs with
    | nil => simp [argminList]
    | cons y rest =>
      rw [argminList]
      split
      · simp
      · have := ih (by simp)
        simpa [Nat.succ_lt_succ_iff] using this

theorem minListQ_le (l : List ℚ) (j : ℕ) (hj : j < l.length) :
    argminList.minListQ l ≤ l.getD j 0 := by
  induction l generalizing j with
  | nil => simp at hj
  | cons x xs ih =>
    cases xs with
    | nil =>
      cases j with
      | zero => simp [argminList.minListQ]
      | succ j => simp at hj
    | cons y rest =>
      rw [argminList.minListQ]
      cases j with
      | zero => exact min_le_left _ _
      | succ j =>
        have hj' : j < (y :: rest).length := by simpa using hj
        calc min x (argminList.minListQ (y :: rest)) ≤ argminList.minListQ (y :: rest) :=
              min_le_right _ _
          _ ≤ (y :: rest).getD j 0 := ih j hj'
          _ = (x :: y :: rest).getD (j + 1) 0 := rfl

theorem argminList_getD (l : List ℚ) (h : l ≠ []) :
    l.getD (argminList l) 0 = argminList.minListQ l := by
  induction l with
  | nil => exact absurd rfl h
  | cons x xs ih =>
    cases xs with
    | nil => simp [argminList, argminList.minListQ]
    | cons y rest =>
      rw [argminList, argminList.minListQ]
      split
      · rename_i hx
        simpa using (min_eq_left hx).symm
      · rename_i hx
        have hmin : min x (argminList.minListQ (y :: rest)) = argminList.minListQ (y :: rest) :=
          min_eq_right (le_of_not_le hx)
        rw [hmin, List.getD_cons_succ]
        exact ih (by simp)

/-- `nearest_cluster(lat, lon)`: argmin over the distances from the point to
each centroid, for a distance function `d` (geopy's geodesic kilometres in
the source). -/
def nearestCluster (d : ℚ × ℚ → ℚ × ℚ → ℚ) (centroids : List (ℚ × ℚ)) (p : ℚ × ℚ) : ℕ :=
  argminList (centroids.map (fun c => d p c))

/-- `demand["cluster_id"] = demand.apply(...)`: pair every original demand
point with its nearest centroid's index. -/
def assignClusters (d : ℚ × ℚ → ℚ × ℚ → ℚ) (centroids : List (ℚ × ℚ))
    (demand : List DemandPoint) : List (DemandPoint × ℕ) :=
  demand.map (fun pt => (pt, nearestCluster d centroids (pt.lat, pt.lon)))

/-- C8: after clustering, every original (non-replicated) demand point is
assigned the index of the centroid minimising the distance `d` from the
point (the source instantiates `d` with the true geodesic distance, not the
degree-space metric used by KMeans); consequently every assigned cluster id
is in `[0, k)` where `k` is the number of centroids. -/
theorem assignClusters_nearest (d : ℚ × ℚ → ℚ × ℚ → ℚ) (centroids : List (ℚ × ℚ))
    (demand : List DemandPoint) (hk : centroids ≠ []) :
    ∀ pr ∈ assignClusters d centroids demand,
      pr.2 < centroids.length ∧
      ∀ j, j < centroids.length →
        d (pr.1.lat, pr.1.lon) (centroids.getD pr.2 (0, 0)) ≤
          d (pr.1.lat, pr.1.lon) (centroids.getD j (0, 0)) := by
  intro pr hpr
  obtain ⟨pt, _, rfl⟩ := List.mem_map.mp hpr
  have hmapne : centroids.map (fun c => d (pt.lat, pt.lon) c) ≠ [] := by
    simpa using hk
  have hlen : (centroids.map (fun c => d (pt.lat, pt.lon) c)).length = centroids.length :=
    List.length_map _ _
  have hlt : nearestCluster d centroids (pt.lat, pt.lon) < centroids.length := by
    have := argminList_lt_length _ hmapne
    rwa [hlen] at this
  refine ⟨hlt, ?_⟩
  intro j hj
  have hgetD : ∀ i, i < centroids.length →
      (centroids.map (fun c => d (pt.lat, pt.lon) c)).getD i 0 =
        d (pt.lat, pt.lon) (centroids.getD i (0, 0)) := by
    intro i hi
    rw [List.getD_eq_getElem _ _ (by rwa [hlen]), List.getD_eq_getElem _ _ hi,
      List.getElem_map]
  calc d (pt.lat, pt.lon) (centroids.getD (nearestCluster d centroids (pt.lat, pt.lon)) (0, 0))
      = (centroids.map (fun c => d (pt.lat, pt.lon) c)).getD
          (nearestCluster d centroids (pt.lat, pt.lon)) 0 := (hgetD _ hlt).symm
    _ = argminList.minListQ (centroids.map (fun c => d (pt.lat, pt.lon) c)) :=
        argminList_getD _ hmapne
    _ ≤ (centroids.map (fun c => d (pt.lat, pt.lon) c)).getD j 0 :=
        minListQ_le _ j (by rwa [hlen])
    _ = d (pt.lat, pt.lon) (centroids.getD j (0, 0)) := hgetD j hj

/-- A stand-in distance for the witness: squared Euclidean distance. -/
def sqDist (a b : ℚ × ℚ) : ℚ := (a.1 - b.1) ^ 2 + (a.2 - b.2) ^ 2

/-- Witness for C8: two concrete centroids and one concrete demand point;
the assigned index is in [0, 2) and its centroid is at least as close as
centroid 1. -/
theorem assignClusters_nearest_witness :
    nearestCluster sqDist [((0 : ℚ), (0 : ℚ)), (10, 10)] (zeroWeightPt.lat, zeroWeightPt.lon) < 2 ∧
    sqDist (zeroWeightPt.lat, zeroWeightPt.lon)
        (([((0 : ℚ), (0 : ℚ)), (10, 10)]).getD
          (nearestCluster sqDist [((0 : ℚ), (0 : ℚ)), (10, 10)]
            (zeroWeightPt.lat, zeroWeightPt.lon)) (0, 0)) ≤
      sqDist (zeroWeightPt.lat, zeroWeightPt.lon) (([((0 : ℚ), (0 : ℚ)), (10, 10)]).getD 1 (0, 0)) := by
  have h := assignClusters_nearest sqDist [((0 : ℚ), (0 : ℚ)), (10, 10)] [zeroWeightPt] (by simp)
    (zeroWeightPt,
      nearestCluster sqDist [((0 : ℚ), (0 : ℚ)), (10, 10)] (zeroWeightPt.lat, zeroWeightPt.lon))
    (by simp [assignClusters])
  exact ⟨h.1, h.2 1 (by norm_num)⟩

/-!
## Need-score normalisation (`clustering.py`, lines 249, 263-268)
-/

/-- `need_score_raw = avg_severity * dist`. -/
def needScoreRaw (sev dist : ℚ) : ℚ := sev * dist

/-- pandas `Series.max()` over a nonempty column (0 as a junk value for the
empty list, which the pipeline never produces: `k = 5` rows always exist). -/
def maxListQ : List ℚ → ℚ
  | [] => 0
  | x :: xs => xs.foldl max x

/-- The normalisation step: if the maximum raw score is positive, every
score becomes `raw / max * 100`; otherwise every score becomes 0. -/
def normalizeScores (raws : List ℚ) : List ℚ :=
  if 0 < maxListQ raws then raws.map (fun r => r / maxListQ raws * 100)
  else raws.map (fun _ => 0)

theorem le_foldl_max (l : List ℚ) (a : ℚ) : a ≤ l.foldl max a := by
  induction l generalizing a with
  | nil => exact le_refl a
  | cons c t ih => exact le_trans (le_max_left a c) (ih (max a c))

theorem mem_le_foldl_max {x : ℚ} {l : List ℚ} (h : x ∈ l) (a : ℚ) : x ≤ l.foldl max a := by
  induction l generalizing a with
  | nil => cases h
  | cons c t ih =>
    rcases List.mem_cons.mp h with rfl | h
    · exact le_trans (le_max_right a x) (le_foldl_max t (max a x))
    · exact ih h (max a c)

theorem foldl_max_le {l : List ℚ} {a b : ℚ} (ha : a ≤ b) (h : ∀ x ∈ l, x ≤ b) :
    l.foldl max a ≤ b := by
  induction l generalizing a with
  | nil => exact ha
  | cons c t ih =>
    exact ih (max_le ha (h c (List.mem_cons_self c t))) (fun x hx => h x (List.mem_cons_of_mem c hx))

theorem le_maxListQ {x : ℚ} {l : List ℚ} (h : x ∈ l) : x ≤ maxListQ l := by
  cases l with
  | nil => cases h
  | cons y ys =>
    rcases List.mem_cons.mp h with rfl | h
    · exact le_foldl_max ys x
    · exact mem_le_foldl_max h y

theorem foldl_max_map (f : ℚ → ℚ) (hf : ∀ a b, f (max a b) = max (f a) (f b))
    (l : List ℚ) (a : ℚ) : (l.map f).foldl max (f a) = f (l.foldl max a) := by
  induction l generalizing a with
  | nil => rfl
  | cons c t ih =>
    simp only [List.map_cons, List.foldl_cons]
    rw [← hf a c, ih (max a c)]

theorem maxListQ_map (f : ℚ → ℚ) (hf : ∀ a b, f (max a b) = max (f a) (f b))
    (l : List ℚ) (h : l ≠ []) : maxListQ (l.map f) = f (maxListQ l) := by
  cases l with
  | nil => exact absurd rfl h
  | cons x xs => exact foldl_max_map f hf xs x

/-- C6: if at least one cluster has positive raw need (severity × distance),
every need score is `raw / max(raw) × 100` and the maximum need score is
exactly 100; if every cluster's raw need is 0, every need score is 0 (the
division-by-zero guard's `else` branch). -/
theorem need_score_normalization (pairs : List (ℚ × ℚ)) :
    ((∃ pr ∈ pairs, 0 < needScoreRaw pr.1 pr.2) →
      normalizeScores (pairs.map (fun pr => needScoreRaw pr.1 pr.2)) =
        (pairs.map (fun pr => needScoreRaw pr.1 pr.2)).map
          (fun r => r / maxListQ (pairs.map (fun pr => needScoreRaw pr.1 pr.2)) * 100) ∧
      maxListQ (normalizeScores (pairs.map (fun pr => needScoreRaw pr.1 pr.2))) = 100) ∧
    ((∀ pr ∈ pairs, needScoreRaw pr.1 pr.2 = 0) →
      ∀ s ∈ normalizeScores (pairs.map (fun pr => needScoreRaw pr.1 pr.2)), s = 0) := by
  set raws := pairs.map (fun pr => needScoreRaw pr.1 pr.2) with hraws
  constructor
  · rintro ⟨pr, hpr, hpos⟩
    have hmem : needScoreRaw pr.1 pr.2 ∈ raws := List.mem_map.mpr ⟨pr, hpr, rfl⟩
    have hm : 0 < maxListQ raws := lt_of_lt_of_le hpos (le_maxListQ hmem)
    have hne : raws ≠ [] := List.ne_nil_of_mem hmem
    have hnorm : normalizeScores raws = raws.map (fun r => r / maxListQ raws * 100) := by
      rw [normalizeScores, if_pos hm]
    refine ⟨hnorm, ?_⟩
    have hmono : Monotone (fun r => r / maxListQ raws * 100) := by
      intro a b hab
      have := (div_le_div_iff_of_pos_right hm).mpr hab
      exact mul_le_mul_of_nonneg_right this (by norm_num)
    rw [hnorm, maxListQ_map _ (fun a b => hmono.map_max) raws hne]
    field_simp
  · intro hz s hs
    have hall : ∀ r ∈ raws, r = 0 := by
      intro r hr
      obtain ⟨pr, hpr, rfl⟩ := List.mem_map.mp hr
      exact hz pr hpr
    have hle : maxListQ raws ≤ 0 := by
      cases hr : raws with
      | nil => exact le_of_eq rfl
      | cons y ys =>
        have hy : y ≤ 0 := le_of_eq (hall y (hr ▸ List.mem_cons_self y ys))
        exact foldl_max_le hy
          (fun x hx => le_of_eq (hall x (hr ▸ List.mem_cons_of_mem y hx)))
    have hm : ¬ 0 < maxListQ raws := not_lt.mpr hle
    rw [normalizeScores, if_neg hm] at hs
    obtain ⟨r, _, rfl⟩ := List.mem_map.mp hs
    rfl

/-- Witness for C6: clusters with raw needs [2, 1] normalise with maximum
100; clusters with all-zero raw need normalise to all zeros. -/
theorem need_score_normalization_witness :
    maxListQ (normalizeScores ([((1 : ℚ), (2 : ℚ)), (1, 1)].map
      (fun pr => needScoreRaw pr.1 pr.2))) = 100 ∧
    ∀ s ∈ normalizeScores ([((0 : ℚ), (3 : ℚ))].map (fun pr => needScoreRaw pr.1 pr.2)),
      s = 0 :=
  ⟨((need_score_normalization [(1, 2), (1, 1)]).1
      ⟨(1, 2), by simp, by norm_num [needScoreRaw]⟩).2,
   (need_score_normalization [(0, 3)]).2
      (by intro pr hpr; simp at hpr; rw [hpr]; norm_num [needScoreRaw])⟩

/-!
## Priority labelling (`clustering.py`, lines 251-277)

One row of `clusters_out` as far as the ranking step needs it: the cluster
id, the normalised need score, and the priority column (initialised ""). -/

structure ClusterRow where
  cluster_id : ℕ
  need_score : ℚ
  priority : String
deriving DecidableEq, Repr

/-- The fixed ordered label list. -/
def priorities : List String := ["HIGH", "MEDIUM-HIGH", "MEDIUM", "MEDIUM-LOW", "LOW"]

/-- Insert a row into a list sorted by descending need score (before the
first strictly smaller element). -/
def insertDesc (c : ClusterRow) : List ClusterRow → List ClusterRow
  | [] => [c]
  | d :: rest => if d.need_score < c.need_score then c :: d :: rest else d :: insertDesc c rest

/-- `clusters_out.sort_values("need_score", ascending=False)` (pandas'
unstable quicksort is modelled by insertion sort; the claims proved below do
not depend on the order of tied rows). -/
def sortDesc : List ClusterRow → List ClusterRow
  | [] => []
  | c :: rest => insertDesc c (sortDesc rest)

/-- The labelling loop `for i, priority in enumerate(priorities): if i <
len(clusters_out): clusters_out.loc[i, "priority"] = priority`: the first
`len(priorities)` sorted rows get the labels in order, later rows keep
their priority column unchanged. -/
def relabel (p : String) (c : ClusterRow) : ClusterRow := { c with priority := p }

@[simp] theorem relabel_priority (p : String) (c : ClusterRow) : (relabel p c).priority = p := rfl

@[simp] theorem relabel_need_score (p : String) (c : ClusterRow) :
    (relabel p c).need_score = c.need_score := rfl

@[simp] theorem relabel_cluster_id (p : String) (c : ClusterRow) :
    (relabel p c).cluster_id = c.cluster_id := rfl

def assignPriorities (l : List ClusterRow) : List ClusterRow :=
  List.zipWith relabel priorities (sortDesc l) ++ (sortDesc l).drop priorities.length

theorem mem_insertDesc {x c : ClusterRow} {l : List ClusterRow} (h : x ∈ insertDesc c l) :
    x = c ∨ x ∈ l := by
  induction l with
  | nil => simpa [insertDesc] using h
  | cons d rest ih =>
    rw [insertDesc] at h
    split at h
    · rcases List.mem_cons.mp h with rfl | h
      · exact Or.inl rfl
      · exact Or.inr h
    · rcases List.mem_cons.mp h with rfl | h
      · exact Or.inr (List.mem_cons_self _ _)
      · rcases ih h with h | h
        · exact Or.inl h
        · exact Or.inr (List.mem_cons_of_mem _ h)

theorem mem_sortDesc {x : ClusterRow} {l : List ClusterRow} (h : x ∈ sortDesc l) : x ∈ l := by
  induction l with
  | nil => simp [sortDesc] at h
  | cons c rest ih =>
    rw [sortDesc] at h
    rcases mem_insertDesc h with rfl | h
    · exact List.mem_cons_self _ _
    · exact List.mem_cons_of_mem _ (ih h)

theorem pairwise_insertDesc {c : ClusterRow} {l : List ClusterRow}
    (h : l.Pairwise (fun a b => b.need_score ≤ a.need_score)) :
    (insertDesc c l).Pairwise (fun a b => b.need_score ≤ a.need_score) := by
  induction l with
  | nil => simp [insertDesc]
  | cons d rest ih =>
    rw [insertDesc]
    rcases List.pairwise_cons.mp h with ⟨hd, hrest⟩
    split
    · rename_i hlt
      refine List.pairwise_cons.mpr ⟨?_, h⟩
      intro x hx
      rcases List.mem_cons.mp hx with rfl | hx
      · exact le_of_lt hlt
      · exact le_trans (hd x hx) (le_of_lt hlt)
    · rename_i hge
      refine List.pairwise_cons.mpr ⟨?_, ih hrest⟩
      intro x hx
      rcases mem_insertDesc hx with rfl | hx
      · exact le_of_not_lt hge
      · exact hd x hx

theorem pairwise_sortDesc (l : List ClusterRow) :
    (sortDesc l).Pairwise (fun a b => b.need_score ≤ a.need_score) := by
  induction l with
  | nil => simp [sortDesc]
  | cons c rest ih => exact pairwise_insertDesc ih

theorem length_insertDesc (c : ClusterRow) (l : List ClusterRow) :
    (insertDesc c l).length = l.length + 1 := by
  induction l with
  | nil => rfl
  | cons d rest ih =>
    rw [insertDesc]
    split
    · rfl
    · simp [ih]

theorem length_sortDesc (l : List ClusterRow) : (sortDesc l).length = l.length := by
  induction l with
  | nil => rfl
  | cons c rest ih => simp [sortDesc, length_insertDesc, ih]

theorem map_priority_zipWith (ps : List String) (cs : List ClusterRow) :
    (List.zipWith relabel ps cs).map (·.priority) = ps.take cs.length := by
  induction ps generalizing cs with
  | nil => simp
  | cons p ps ih =>
    cases cs with
    | nil => simp
    | cons c cs => simp [ih]

theorem map_need_score_assign (ps : List String) (cs : List ClusterRow) :
    ((List.zipWith relabel ps cs ++ cs.drop ps.length).map
      (·.need_score)) = cs.map (·.need_score) := by
  induction ps generalizing cs with
  | nil => simp
  | cons p ps ih =>
    cases cs with
    | nil => simp
    | cons c cs => simpa using ih cs

theorem drop_assign (ps : List String) (cs : List ClusterRow) :
    (List.zipWith relabel ps cs ++ cs.drop ps.length).drop
      ps.length = cs.drop ps.length := by
  induction ps generalizing cs with
  | nil => simp
  | cons p ps ih =>
    cases cs with
    | nil => simp
    | cons c cs => simpa using ih cs

/-- C5 (amended): after scoring, the labelled cluster list is in descending
(non-increasing) need-score order; when there are exactly 5 clusters the
priority column reads exactly [HIGH, MEDIUM-HIGH, MEDIUM, MEDIUM-LOW, LOW]
top to bottom — each label used once, none repeated; and clusters beyond the
label list's length keep their initial empty label.  (Strictly descending
order holds only when the need scores are pairwise distinct; ties are
labelled in tie-broken order.) -/
theorem priority_assignment (l : List ClusterRow) :
    (assignPriorities l).Pairwise (fun a b => b.need_score ≤ a.need_score) ∧
    (l.length = 5 → (assignPriorities l).map (·.priority) = priorities) ∧
    ((∀ c ∈ l, c.priority = "") →
      ∀ c ∈ (assignPriorities l).drop priorities.length, c.priority = "") := by
  refine ⟨?_, ?_, ?_⟩
  · have hmap := map_need_score_assign priorities (sortDesc l)
    have hpw : ((assignPriorities l).map (·.need_score)).Pairwise (fun a b : ℚ => b ≤ a) := by
      rw [assignPriorities, hmap]
      exact (List.pairwise_map).mpr (pairwise_sortDesc l)
    exact (List.pairwise_map).mp hpw
  · intro hlen
    have hslen : (sortDesc l).length = 5 := by rw [length_sortDesc, hlen]
    have hdrop : (sortDesc l).drop priorities.length = [] := by
      apply List.drop_eq_nil_of_le
      rw [hslen]
      rfl
    rw [assignPriorities, List.map_append, map_priority_zipWith, hslen, hdrop]
    rfl
  · intro hinit c hc
    rw [assignPriorities, drop_assign] at hc
    exact hinit c (mem_sortDesc (List.mem_of_mem_drop hc))

/-- Five clusters with identical (all-zero) need scores and blank priority. -/
def tieRows : List ClusterRow :=
  [⟨0, 0, ""⟩, ⟨1, 0, ""⟩, ⟨2, 0, ""⟩, ⟨3, 0, ""⟩, ⟨4, 0, ""⟩]

/-- C5 counterexample: with k = 5 and all need scores equal (all raw needs
zero), the five distinct labels are still assigned one per cluster, but the
need scores are not *strictly* descending — the claim's strictness fails on
ties. -/
theorem priority_assignment_ties :
    (assignPriorities tieRows).map (·.priority) = priorities ∧
    (assignPriorities tieRows).map (·.need_score) = [0, 0, 0, 0, 0] ∧
    ¬ (assignPriorities tieRows).Pairwise (fun a b => b.need_score < a.need_score) := by
  refine ⟨by norm_num [assignPriorities, tieRows, sortDesc, insertDesc, priorities], ?_, ?_⟩
  · norm_num [assignPriorities, tieRows, sortDesc, insertDesc, priorities]
  · intro h
    have hmap : ((assignPriorities tieRows).map (·.need_score)).Pairwise
        (fun a b : ℚ => b < a) := (List.pairwise_map).mpr h
    have hlist : (assignPriorities tieRows).map (·.need_score) = [0, 0, 0, 0, 0] := by
      norm_num [assignPriorities, tieRows, sortDesc, insertDesc, priorities]
    rw [hlist] at hmap
    rcases List.pairwise_cons.mp hmap with ⟨h0, _⟩
    exact absurd (h0 0 (by simp)) (by norm_num)

/-- Witness for C5: five clusters with distinct scores 5 > 4 > 3 > 2 > 1 in
scrambled input order receive the five labels. -/
theorem priority_assignment_witness :
    (assignPriorities [⟨0, 3, ""⟩, ⟨1, 5, ""⟩, ⟨2, 1, ""⟩, ⟨3, 4, ""⟩, ⟨4, 2, ""⟩]).map
      (·.priority) = priorities ∧
    ∀ c ∈ (assignPriorities [(⟨0, 3, ""⟩ : ClusterRow), ⟨1, 5, ""⟩, ⟨2, 1, ""⟩, ⟨3, 4, ""⟩,
      ⟨4, 2, ""⟩]).drop priorities.length, c.priority = "" :=
  ⟨(priority_assignment _).2.1 rfl,
   (priority_assignment _).2.2 (by intro c hc; fin_cases hc <;> rfl)⟩

/-!
## The query API (`app.py`)

`/clusters` reads `clusters_out.csv`, applies `df.fillna(0)`, then for each
row extracts fields with `row.get(col, default)` guarded by `safe_float`,
and attaches a synthesized circular boundary polygon from `make_circle`.

A CSV cell is absent (column missing), NaN, or a number.  (`safe_float`
also maps infinities to the default; the clusters table never contains
them, and `Cell` has no infinity constructor.)
-/

inductive Cell where
  | absent
  | nan
  | num (x : ℝ)

/-- `df.fillna(0)` on one cell: NaN becomes 0, an absent column stays
absent, numbers pass through. -/
def fillnaCell : Cell → Cell
  | .nan => .num 0
  | c => c

/-- `row.get(col, default)`: the default replaces an absent column only. -/
def pyGet (c : Cell) (d : ℝ) : Cell :=
  match c with
  | .absent => .num d
  | c => c

/-- `safe_float(x, default=0.0)`: NaN (and anything non-numeric) becomes
0.0, numbers pass through. -/
def safeFloat : Cell → ℝ
  | .num x => x
  | _ => 0

/-- One row of `clusters_out.csv`. -/
structure ClusterCsvRow where
  cluster_id : ℕ
  recommended_lat : Cell
  recommended_lon : Cell
  avg_severity_index : Cell
  distance_to_nearest_shelter_km : Cell
  need_score : Cell
  priority : String

/-- One record of the `/clusters` JSON response. -/
structure ClusterApiRow where
  cluster_id : ℕ
  recommended_lat : ℝ
  recommended_lon : ℝ
  avg_severity_index : ℝ
  distance_to_nearest_shelter_km : ℝ
  need_score : ℝ
  priority : String
  boundary : List (ℝ × ℝ)

/-- `range(0, 360, 15)`: the 24 polygon angles in degrees. -/
def circleAngles : List ℕ := List.range' 0 24 15

/-- `make_circle(lat, lon, radius_km)` from `app.py` lines 47-57:
`dx = radius_km * 111 * cos(theta)`, `dy = radius_km * 111 * sin(theta)`,
vertex `[lat + dy / 111, lon + dx / (111 * cos(radians(lat)))]`. -/
noncomputable def makeCircle (lat lon radius_km : ℝ) : List (ℝ × ℝ) :=
  circleAngles.map (fun (a : ℕ) =>
    (lat + radius_km * 111 * Real.sin ((a : ℝ) * Real.pi / 180) / 111,
     lon + radius_km * 111 * Real.cos ((a : ℝ) * Real.pi / 180) /
       (111 * Real.cos (lat * Real.pi / 180))))

/-- The per-row body of the `/clusters` loop (`app.py` lines 86-100). -/
noncomputable def processClusterRow (r : ClusterCsvRow) : ClusterApiRow :=
  let rlat := safeFloat (pyGet (fillnaCell r.recommended_lat) 0)
  let rlon := safeFloat (pyGet (fillnaCell r.recommended_lon) 0)
  let dist := safeFloat (pyGet (fillnaCell r.distance_to_nearest_shelter_km) 1)
  { cluster_id := r.cluster_id,
    recommended_lat := rlat,
    recommended_lon := rlon,
    avg_severity_index := safeFloat (pyGet (fillnaCell r.avg_severity_index) 0),
    distance_to_nearest_shelter_km := dist,
    need_score := safeFloat (pyGet (fillnaCell r.need_score) 0),
    priority := r.priority,
    boundary := makeCircle rlat rlon dist }

/-- The `/clusters` endpoint response. -/
noncomputable def clustersEndpoint (rows : List ClusterCsvRow) : List ClusterApiRow :=
  rows.map processClusterRow

/-- The claimed value of a cell after the endpoint's cleaning: the absent
default for a missing column, the NaN default for NaN, else the number. -/
def cellValue (c : Cell) (dAbsent dNan : ℝ) : ℝ :=
  match c with
  | .absent => dAbsent
  | .nan => dNan
  | .num x => x

/-- C9 (evaluation at the claim's example input): `make_circle` for centroid
(43.65, -79.38) and radius 1.2 km does return exactly 24 vertices at 15-degree
steps, but the vertex at angle 90 (index 6) is (44.85, -79.38): the code first
multiplies the radius by 111 and then divides by 111 again, so the net
latitude offset is 1.2 *degrees*, not 1.2 km worth of degrees (1.2/111).
Along a meridian one degree of latitude is at least 111 km of great-circle
distance, so a vertex within even ten times the claimed 1.2 km would need
|delta lat| at most 12/111 of a degree; the actual offset 1.2 is about 133 km. -/
theorem make_circle_vertex_far :
    (makeCircle 43.65 (-79.38) 1.2).length = 24 ∧
    (makeCircle 43.65 (-79.38) 1.2)[6]? = some ((44.85 : ℝ), (-79.38 : ℝ)) ∧
    ¬ (|(44.85 : ℝ) - 43.65| ≤ 12 * (1.2 / 111)) := by
  refine ⟨?_, ?_, ?_⟩
  · rw [makeCircle, List.length_map]
    rfl
  · rw [makeCircle, List.getElem?_map]
    have h6 : circleAngles[6]? = some 90 := rfl
    rw [h6, Option.map_some']
    have hth : ((90 : ℕ) : ℝ) * Real.pi / 180 = Real.pi / 2 := by push_cast; ring
    simp only [hth, Real.sin_pi_div_two, Real.cos_pi_div_two]
    norm_num
  · rw [show |(44.85 : ℝ) - 43.65| = 1.2 by rw [abs_of_nonneg] <;> norm_num]
    norm_num

/-- C10: in every `/clusters` record, the boundary circle's radius is the
row's `distance_to_nearest_shelter_km` value — 1.0 if that column is absent,
0 if its value is NaN (`df.fillna(0)` runs before `row.get`), the number
itself otherwise — and the boundary is `make_circle` of the row's cleaned
latitude/longitude and that radius, so the mapped boundary scales with the
cluster's distance to the nearest shelter rather than being a fixed size. -/
theorem clusters_radius_from_distance (r : ClusterCsvRow) :
    (processClusterRow r).distance_to_nearest_shelter_km =
      cellValue r.distance_to_nearest_shelter_km 1 0 ∧
    (processClusterRow r).boundary =
      makeCircle (cellValue r.recommended_lat 0 0) (cellValue r.recommended_lon 0 0)
        (cellValue r.distance_to_nearest_shelter_km 1 0) := by
  obtain ⟨id, clat, clon, csev, cdist, cns, pr⟩ := r
  cases clat <;> cases clon <;> cases cdist <;>
    simp [processClusterRow, fillnaCell, pyGet, safeFloat, cellValue]

end Datathon
